import Mathlib

/-!
Shallow embedding of `src/api/routers/model.py` (bedrock-access-gateway):
a TTL-cached `/models` catalog aggregated from two upstream Bedrock
listings.  Python dicts with fixed keys become structures; `time.time()`
is modelled as an explicit `now : Int` parameter, constant within one
call to `_build_models_payload` (the source calls `_now()` several times
during one request; nothing specified depends on the clock advancing
mid-call); upstream boto3 calls become `Except`-valued inputs; the
module-level mutable `MODELS_CACHE` becomes explicit state passing.
-/

namespace BedrockGateway

/-- One entry of the `/models` payload: the dict
`{"id": ..., "created": ..., "object": "model", "owned_by": "bedrock"}`
built by `_list_foundation_models` / `_list_cross_region_profiles`. -/
structure ModelRecord where
  id : String
  created : Int
  object : String
  owned_by : String
deriving DecidableEq, Repr

/-- An upstream base-model summary (`resp["modelSummaries"][i]`): only the
field the code reads.  `m.get("modelId")` may be absent (`none`) or an
empty string; both are falsy in `if not mid`. -/
structure BaseModelSummary where
  modelId : Option String
deriving DecidableEq, Repr

/-- An upstream inference-profile summary
(`page["inferenceProfileSummaries"][i]`): the three fields the code reads.
`createdAt = some t` models a time-like value (one with a `.timestamp()`
attribute) whose Unix-seconds value is `t`; `none` models an absent or
non-time-like value. -/
structure InferenceProfileSummary where
  inferenceProfileId : Option String
  inferenceProfileArn : Option String
  createdAt : Option Int
deriving DecidableEq, Repr

/-- Python truthiness of an optional string: `None` and `""` are falsy. -/
def truthy : Option String → Bool
  | none => false
  | some s => !s.isEmpty

/-- `_list_foundation_models` loop body for one summary: skip when
`modelId` is falsy, else emit one record with `created = _now()`. -/
def normalizeBase (now : Int) (m : BaseModelSummary) : List ModelRecord :=
  match m.modelId with
  | none => []
  | some mid =>
      if mid.isEmpty then []
      else [{ id := mid, created := now, object := "model", owned_by := "bedrock" }]

/-- `_list_foundation_models(client)`: normalize each summary in order. -/
def listFoundationModels (now : Int) (summaries : List BaseModelSummary) :
    List ModelRecord :=
  summaries.flatMap (normalizeBase now)

/-- `created_ts` for one profile summary:
`int(created_at.timestamp()) if hasattr(created_at, "timestamp") else _now()`. -/
def createdTs (now : Int) (s : InferenceProfileSummary) : Int :=
  match s.createdAt with
  | some t => t
  | none => now

/-- `_list_cross_region_profiles` inner loop body for one summary: emit a
record for a truthy `inferenceProfileId`, then another for a truthy
`inferenceProfileArn`, both with the same `created_ts`. -/
def normalizeProfile (now : Int) (s : InferenceProfileSummary) : List ModelRecord :=
  (match s.inferenceProfileId with
   | none => []
   | some pid =>
       if pid.isEmpty then []
       else [{ id := pid, created := createdTs now s, object := "model",
               owned_by := "bedrock" }]) ++
  (match s.inferenceProfileArn with
   | none => []
   | some arn =>
       if arn.isEmpty then []
       else [{ id := arn, created := createdTs now s, object := "model",
               owned_by := "bedrock" }])

/-- `_list_cross_region_profiles(client)`: the paginator yields pages in
order; the nested loops normalize every summary of every page in order. -/
def listCrossRegionProfiles (now : Int)
    (pages : List (List InferenceProfileSummary)) : List ModelRecord :=
  pages.flatten.flatMap (normalizeProfile now)

/-- The dedup loop of `_build_models_payload`:
`for item in fm_entries + xreg_entries: if item["id"] in seen: continue;
seen.add(item["id"]); data.append(item)`. -/
def dedupLoop (seen : List String) : List ModelRecord → List ModelRecord
  | [] => []
  | item :: rest =>
      if item.id ∈ seen then dedupLoop seen rest
      else item :: dedupLoop (item.id :: seen) rest

/-- The response payload `{"object": "list", "data": data}`. -/
structure ModelsPayload where
  object : String
  data : List ModelRecord
deriving DecidableEq, Repr

/-- `MODELS_CACHE`: `data` is `None` initially (falsy) and otherwise the
stored payload dict, which has two keys and is therefore always truthy —
`Option.isSome` models the `MODELS_CACHE["data"]` truthiness test exactly. -/
structure ModelsCache where
  data : Option ModelsPayload
  ts : Int
deriving DecidableEq, Repr

/-- The initial module-level cache: `{"data": None, "ts": 0}`. -/
def initialCache : ModelsCache := { data := none, ts := 0 }

/-- `CACHE_TTL_SECONDS = 300`. -/
def CACHE_TTL_SECONDS : Int := 300

/-- The outcomes of the two upstream boto3 calls for one aggregation:
`list_foundation_models` and the `list_inference_profiles` page walk.
An `Except.error` models the call raising. -/
structure Upstream where
  fmResult : Except String (List BaseModelSummary)
  xregResult : Except String (List (List InferenceProfileSummary))
deriving Repr

/-- How many times each upstream operation was invoked during one call to
`_build_models_payload`. -/
structure CallTrace where
  fmCalls : Nat
  xregCalls : Nat
deriving DecidableEq, Repr

/-- The recompute path of `_build_models_payload` (everything after the
cache check): call both upstream listings, dedup the concatenation, wrap
it, and store payload and timestamp.  A raise propagates before any cache
write, so the cache component of the result is the input cache then. -/
def recompute (now : Int) (up : Upstream) (cache : ModelsCache) :
    Except String ModelsPayload × ModelsCache × CallTrace :=
  match up.fmResult with
  | .error e => (.error e, cache, ⟨1, 0⟩)
  | .ok fms =>
      match up.xregResult with
      | .error e => (.error e, cache, ⟨1, 1⟩)
      | .ok pages =>
          let fm_entries := listFoundationModels now fms
          let xreg_entries := listCrossRegionProfiles now pages
          let data := dedupLoop [] (fm_entries ++ xreg_entries)
          let payload : ModelsPayload := { object := "list", data := data }
          (.ok payload, { data := some payload, ts := now }, ⟨1, 1⟩)

/-- `_build_models_payload(force_refresh)`: serve the cached payload when
`not force_refresh and MODELS_CACHE["data"] and _now() - MODELS_CACHE["ts"]
< CACHE_TTL_SECONDS`, else recompute. -/
def buildModelsPayload (force_refresh : Bool) (now : Int) (up : Upstream)
    (cache : ModelsCache) :
    Except String ModelsPayload × ModelsCache × CallTrace :=
  match cache.data with
  | some payload =>
      if !force_refresh && decide (now - cache.ts < CACHE_TTL_SECONDS) then
        (.ok payload, cache, ⟨0, 0⟩)
      else recompute now up cache
  | none => recompute now up cache

/-! ### Lemmas about the dedup loop -/

theorem mem_dedupLoop_not_seen (r : ModelRecord) (l : List ModelRecord) :
    ∀ seen : List String, r ∈ dedupLoop seen l → r.id ∉ seen := by
  induction l with
  | nil => intro seen h; simp [dedupLoop] at h
  | cons item rest ih =>
      intro seen h
      by_cases hm : item.id ∈ seen
      · simp only [dedupLoop, if_pos hm] at h
        exact ih seen h
      · simp only [dedupLoop, if_neg hm] at h
        rw [List.mem_cons] at h
        rcases h with h1 | h2
        · subst h1; exact hm
        · have h3 := ih _ h2
          intro hc
          exact h3 (List.mem_cons_of_mem _ hc)

theorem dedupLoop_id_nodup (l : List ModelRecord) :
    ∀ seen : List String, ((dedupLoop seen l).map ModelRecord.id).Nodup := by
  induction l with
  | nil => intro seen; simp [dedupLoop]
  | cons item rest ih =>
      intro seen
      by_cases hm : item.id ∈ seen
      · simp only [dedupLoop, if_pos hm]; exact ih seen
      · simp only [dedupLoop, if_neg hm, List.map_cons, List.nodup_cons]
        refine ⟨?_, ih _⟩
        intro hc
        rcases List.mem_map.mp hc with ⟨r, hr, hid⟩
        have h3 := mem_dedupLoop_not_seen r rest (item.id :: seen) hr
        rw [hid] at h3
        exact h3 (List.mem_cons_self _ _)

theorem dedupLoop_sublist (l : List ModelRecord) :
    ∀ seen : List String, (dedupLoop seen l).Sublist l := by
  induction l with
  | nil => intro seen; simp [dedupLoop]
  | cons item rest ih =>
      intro seen
      by_cases hm : item.id ∈ seen
      · simp only [dedupLoop, if_pos hm]
        exact (ih seen).trans (List.sublist_cons_self item rest)
      · simp only [dedupLoop, if_neg hm]
        exact (ih _).cons₂ item

theorem id_mem_dedupLoop (r : ModelRecord) (l : List ModelRecord) :
    ∀ seen : List String, r ∈ l → r.id ∉ seen →
      r.id ∈ (dedupLoop seen l).map ModelRecord.id := by
  induction l with
  | nil => intro seen h; simp at h
  | cons item rest ih =>
      intro seen hmem hns
      rw [List.mem_cons] at hmem
      by_cases hm : item.id ∈ seen
      · simp only [dedupLoop, if_pos hm]
        rcases hmem with h1 | h2
        · rw [h1] at hns; exact absurd hm hns
        · exact ih seen h2 hns
      · simp only [dedupLoop, if_neg hm, List.map_cons]
        rcases hmem with h1 | h2
        · rw [h1]; exact List.mem_cons_self _ _
        · by_cases heq : r.id = item.id
          · rw [heq]; exact List.mem_cons_self _ _
          · have hns2 : r.id ∉ item.id :: seen := by
              rw [List.mem_cons]; push_neg; exact ⟨heq, hns⟩
            exact List.mem_cons_of_mem _ (ih _ h2 hns2)

theorem find?_of_mem_dedupLoop (r : ModelRecord) (l : List ModelRecord) :
    ∀ seen : List String, r ∈ dedupLoop seen l →
      l.find? (fun x => x.id == r.id) = some r := by
  induction l with
  | nil => intro seen h; simp [dedupLoop] at h
  | cons item rest ih =>
      intro seen h
      by_cases hm : item.id ∈ seen
      · simp only [dedupLoop, if_pos hm] at h
        have hns := mem_dedupLoop_not_seen r rest seen h
        have hne : ¬ ((fun x => x.id == r.id) item) = true := by
          simp only [beq_iff_eq]
          intro hc; rw [hc] at hm; exact hns hm
        rw [@List.find?_cons_of_neg _ (fun x => x.id == r.id) item rest hne]
        exact ih seen h
      · simp only [dedupLoop, if_neg hm] at h
        rw [List.mem_cons] at h
        rcases h with h1 | h2
        · rw [h1]
          rw [@List.find?_cons_of_pos _ (fun x => x.id == item.id) item rest (by simp)]
        · have hns := mem_dedupLoop_not_seen r rest (item.id :: seen) h2
          have hne : ¬ ((fun x => x.id == r.id) item) = true := by
            simp only [beq_iff_eq]
            intro hc
            rw [hc] at hns
            exact hns (List.mem_cons_self _ _)
          rw [@List.find?_cons_of_neg _ (fun x => x.id == r.id) item rest hne]
          exact ih _ h2

theorem dedupLoop_append (a : List ModelRecord) :
    ∀ (seen : List String) (b : List ModelRecord),
      dedupLoop seen (a ++ b) =
        dedupLoop seen a ++
          dedupLoop (((dedupLoop seen a).map ModelRecord.id).reverse ++ seen) b := by
  induction a with
  | nil => intro seen b; simp [dedupLoop]
  | cons item rest ih =>
      intro seen b
      by_cases hm : item.id ∈ seen
      · simp only [List.cons_append, dedupLoop, if_pos hm]
        exact ih seen b
      · have hrfl : (item :: rest) ++ b = item :: (rest ++ b) := rfl
        rw [hrfl]
        simp only [dedupLoop, if_neg hm]
        rw [ih (item.id :: seen) b]
        simp [List.cons_append, List.map_cons, List.reverse_cons,
          List.append_assoc, List.singleton_append]

theorem find?_eq_some_of_mem_nodup (r : ModelRecord) (l : List ModelRecord) :
    (l.map ModelRecord.id).Nodup → r ∈ l →
      l.find? (fun x => x.id == r.id) = some r := by
  induction l with
  | nil => intro _ h; simp at h
  | cons item rest ih =>
      intro hnd hmem
      rw [List.map_cons, List.nodup_cons] at hnd
      rw [List.mem_cons] at hmem
      rcases hmem with h1 | h2
      · rw [h1]
        rw [@List.find?_cons_of_pos _ (fun x => x.id == item.id) item rest (by simp)]
      · have hne : ¬ ((fun x => x.id == r.id) item) = true := by
          simp only [beq_iff_eq]
          intro hc
          exact hnd.1 (hc ▸ List.mem_map.mpr ⟨r, h2, rfl⟩)
        rw [@List.find?_cons_of_neg _ (fun x => x.id == r.id) item rest hne]
        exact ih hnd.2 h2

theorem find?_append_left (l₁ l₂ : List ModelRecord) (p : ModelRecord → Bool)
    (r : ModelRecord) (h : l₁.find? p = some r) :
    (l₁ ++ l₂).find? p = some r := by
  induction l₁ with
  | nil => simp [List.find?] at h
  | cons item rest ih =>
      by_cases hp : p item = true
      · rw [List.find?_cons_of_pos _ hp] at h
        rw [List.cons_append, List.find?_cons_of_pos _ hp]
        exact h
      · rw [List.find?_cons_of_neg _ hp] at h
        rw [List.cons_append, List.find?_cons_of_neg _ hp]
        exact ih h

/-! ### Helpers destructuring the cache paths -/

theorem recompute_ok (now : Int) (up : Upstream) (cache : ModelsCache)
    (p : ModelsPayload) (c' : ModelsCache) (tr : CallTrace)
    (h : recompute now up cache = (.ok p, c', tr)) :
    ∃ fms pages, up.fmResult = .ok fms ∧ up.xregResult = .ok pages ∧
      p = { object := "list",
            data := dedupLoop [] (listFoundationModels now fms ++
                                  listCrossRegionProfiles now pages) } ∧
      c' = { data := some p, ts := now } ∧ tr = ⟨1, 1⟩ := by
  unfold recompute at h
  cases hfm : up.fmResult with
  | error e => rw [hfm] at h; simp at h
  | ok fms =>
      rw [hfm] at h
      cases hx : up.xregResult with
      | error e => rw [hx] at h; simp at h
      | ok pages =>
          rw [hx] at h
          simp only [Prod.mk.injEq, Except.ok.injEq] at h
          exact ⟨fms, pages, rfl, rfl, h.1.symm, by rw [← h.2.1, ← h.1],
            h.2.2.symm⟩

theorem recompute_error (now : Int) (up : Upstream) (cache : ModelsCache)
    (e : String) (c' : ModelsCache) (tr : CallTrace)
    (h : recompute now up cache = (.error e, c', tr)) :
    c' = cache ∧
      (up.fmResult = .error e ∨
        ∃ fms, up.fmResult = .ok fms ∧ up.xregResult = .error e) := by
  unfold recompute at h
  cases hfm : up.fmResult with
  | error e0 =>
      rw [hfm] at h
      simp only [Prod.mk.injEq, Except.error.injEq] at h
      exact ⟨h.2.1.symm, Or.inl (congrArg Except.error h.1)⟩
  | ok fms =>
      rw [hfm] at h
      cases hx : up.xregResult with
      | error e0 =>
          rw [hx] at h
          simp only [Prod.mk.injEq, Except.error.injEq] at h
          exact ⟨h.2.1.symm, Or.inr ⟨fms, rfl, congrArg Except.error h.1⟩⟩
      | ok pages =>
          rw [hx] at h
          simp at h

theorem buildModelsPayload_empty (force_refresh : Bool) (now : Int)
    (up : Upstream) (cache : ModelsCache) (h : cache.data = none) :
    buildModelsPayload force_refresh now up cache = recompute now up cache := by
  unfold buildModelsPayload
  rw [h]

theorem buildModelsPayload_data_some (force_refresh : Bool) (now : Int)
    (up : Upstream) (cache : ModelsCache) (payload : ModelsPayload)
    (hc : cache.data = some payload) :
    buildModelsPayload force_refresh now up cache =
      if !force_refresh && decide (now - cache.ts < CACHE_TTL_SECONDS) then
        (.ok payload, cache, ⟨0, 0⟩)
      else recompute now up cache := by
  unfold buildModelsPayload
  rw [hc]

theorem buildModelsPayload_hit (now : Int) (up : Upstream) (cache : ModelsCache)
    (p0 : ModelsPayload) (hdata : cache.data = some p0)
    (hfresh : now - cache.ts < CACHE_TTL_SECONDS) :
    buildModelsPayload false now up cache = (.ok p0, cache, ⟨0, 0⟩) := by
  rw [buildModelsPayload_data_some false now up cache p0 hdata, if_pos]
  simp [hfresh]

theorem buildModelsPayload_stale (now : Int) (up : Upstream) (cache : ModelsCache)
    (hstale : CACHE_TTL_SECONDS ≤ now - cache.ts) :
    buildModelsPayload false now up cache = recompute now up cache := by
  cases hc : cache.data with
  | none => exact buildModelsPayload_empty false now up cache hc
  | some payload =>
      rw [buildModelsPayload_data_some false now up cache payload hc, if_neg]
      simp only [Bool.not_false, Bool.true_and, decide_eq_true_eq]
      exact not_lt.mpr hstale

theorem buildModelsPayload_forced (now : Int) (up : Upstream)
    (cache : ModelsCache) :
    buildModelsPayload true now up cache = recompute now up cache := by
  cases hc : cache.data with
  | none => exact buildModelsPayload_empty true now up cache hc
  | some payload =>
      rw [buildModelsPayload_data_some true now up cache payload hc]
      simp

theorem buildModelsPayload_ok_recompute (force_refresh : Bool) (now : Int)
    (up : Upstream) (cache : ModelsCache) (p : ModelsPayload) (c' : ModelsCache)
    (tr : CallTrace)
    (h : buildModelsPayload force_refresh now up cache = (.ok p, c', tr))
    (hrec : tr.fmCalls = 1) :
    ∃ fms pages, up.fmResult = .ok fms ∧ up.xregResult = .ok pages ∧
      p = { object := "list",
            data := dedupLoop [] (listFoundationModels now fms ++
                                  listCrossRegionProfiles now pages) } ∧
      c' = { data := some p, ts := now } ∧ tr = ⟨1, 1⟩ := by
  cases hc : cache.data with
  | none =>
      rw [buildModelsPayload_empty force_refresh now up cache hc] at h
      exact recompute_ok now up cache p c' tr h
  | some payload =>
      rw [buildModelsPayload_data_some force_refresh now up cache payload hc] at h
      by_cases hcond :
          (!force_refresh && decide (now - cache.ts < CACHE_TTL_SECONDS)) = true
      · rw [if_pos hcond] at h
        simp only [Prod.mk.injEq] at h
        rw [← h.2.2] at hrec
        simp at hrec
      · rw [if_neg hcond] at h
        exact recompute_ok now up cache p c' tr h

theorem buildModelsPayload_recompute_path (force_refresh : Bool) (now : Int)
    (up : Upstream) (cache : ModelsCache) (res : Except String ModelsPayload)
    (c' : ModelsCache) (tr : CallTrace)
    (h : buildModelsPayload force_refresh now up cache = (res, c', tr))
    (hrec : tr.fmCalls = 1) :
    recompute now up cache = (res, c', tr) := by
  cases hc : cache.data with
  | none =>
      rw [buildModelsPayload_empty force_refresh now up cache hc] at h
      exact h
  | some payload =>
      rw [buildModelsPayload_data_some force_refresh now up cache payload hc]
        at h
      by_cases hcond :
          (!force_refresh && decide (now - cache.ts < CACHE_TTL_SECONDS)) = true
      · rw [if_pos hcond] at h
        simp only [Prod.mk.injEq] at h
        rw [← h.2.2] at hrec
        simp at hrec
      · rw [if_neg hcond] at h
        exact h

/-! ### Claim theorems -/

/-- C1: every successful recomputation through `buildModelsPayload` yields a
payload whose `data` contains no two records with equal `id`; the output is
a subsequence of the pre-dedup concatenation that still covers every
produced id, and each surviving record is the first-produced record with
its id (later duplicates are silently dropped, no error is raised). -/
theorem dedup_invariant (force_refresh : Bool) (now : Int) (up : Upstream)
    (cache : ModelsCache) (p : ModelsPayload) (c' : ModelsCache) (tr : CallTrace)
    (h : buildModelsPayload force_refresh now up cache = (.ok p, c', tr))
    (hrec : tr.fmCalls = 1) :
    (p.data.map ModelRecord.id).Nodup ∧
    ∀ fms pages, up.fmResult = .ok fms → up.xregResult = .ok pages →
      p.data.Sublist
        (listFoundationModels now fms ++ listCrossRegionProfiles now pages) ∧
      (∀ r ∈ listFoundationModels now fms ++ listCrossRegionProfiles now pages,
        r.id ∈ p.data.map ModelRecord.id) ∧
      ∀ r ∈ p.data,
        (listFoundationModels now fms ++ listCrossRegionProfiles now pages).find?
          (fun x => x.id == r.id) = some r := by
  obtain ⟨fms0, pages0, hfm, hx, hp, hc', htr⟩ :=
    buildModelsPayload_ok_recompute force_refresh now up cache p c' tr h hrec
  subst hp
  refine ⟨dedupLoop_id_nodup _ [], ?_⟩
  intro fms pages hfm2 hx2
  have hfeq := Except.ok.inj (hfm.symm.trans hfm2)
  have hxeq := Except.ok.inj (hx.symm.trans hx2)
  subst hfeq; subst hxeq
  refine ⟨dedupLoop_sublist _ [], ?_, ?_⟩
  · intro r hr
    exact id_mem_dedupLoop r _ [] hr (by simp)
  · intro r hr
    exact find?_of_mem_dedupLoop r _ [] hr

/-- Concrete upstream outcome exercising a duplicate base-model id. -/
def W1up : Upstream :=
  { fmResult := .ok [{ modelId := some "claude-v2" },
                     { modelId := some "claude-v2" }],
    xregResult := .ok [[{ inferenceProfileId := some "us.claude-v2",
                          inferenceProfileArn := some "arn:x",
                          createdAt := some 50 }]] }

/-- The payload the code computes for `W1up` at time 100. -/
def W1payload : ModelsPayload :=
  { object := "list",
    data := [{ id := "claude-v2", created := 100, object := "model",
               owned_by := "bedrock" },
             { id := "us.claude-v2", created := 50, object := "model",
               owned_by := "bedrock" },
             { id := "arn:x", created := 50, object := "model",
               owned_by := "bedrock" }] }

theorem dedup_invariant_witness :
    buildModelsPayload false 100 W1up initialCache =
      (.ok W1payload, { data := some W1payload, ts := 100 }, ⟨1, 1⟩) ∧
    (CallTrace.mk 1 1).fmCalls = 1 ∧
    (W1payload.data.map ModelRecord.id).Nodup :=
  ⟨rfl, rfl,
   (dedup_invariant false 100 W1up initialCache W1payload
      { data := some W1payload, ts := 100 } ⟨1, 1⟩ rfl rfl).1⟩

theorem recompute_fmCalls (now : Int) (up : Upstream) (cache : ModelsCache) :
    (recompute now up cache).2.2.fmCalls = 1 := by
  unfold recompute
  cases up.fmResult with
  | error e => rfl
  | ok fms =>
      cases up.xregResult with
      | error e => rfl
      | ok pages => rfl

/-- C2: after a successful recomputation at time `t0`, a non-forced call
made strictly less than 300 seconds later returns the identical stored
payload with no upstream call; made 300 or more seconds later it runs
exactly one fresh recomputation.  The freshness test is
`now - producedAt < CACHE_TTL_SECONDS` and the TTL constant is 300. -/
theorem ttl_correctness (f0 : Bool) (t0 : Int) (up0 : Upstream)
    (c0 : ModelsCache) (p0 : ModelsPayload) (c1 : ModelsCache) (tr0 : CallTrace)
    (h0 : buildModelsPayload f0 t0 up0 c0 = (.ok p0, c1, tr0))
    (hrec0 : tr0.fmCalls = 1) (now : Int) (up : Upstream) :
    CACHE_TTL_SECONDS = 300 ∧
    (now - t0 < 300 →
      buildModelsPayload false now up c1 = (.ok p0, c1, ⟨0, 0⟩)) ∧
    (300 ≤ now - t0 →
      buildModelsPayload false now up c1 = recompute now up c1 ∧
      (buildModelsPayload false now up c1).2.2.fmCalls = 1) := by
  obtain ⟨fms0, pages0, hfm, hx, hp, hc1, htr⟩ :=
    buildModelsPayload_ok_recompute f0 t0 up0 c0 p0 c1 tr0 h0 hrec0
  refine ⟨rfl, ?_, ?_⟩
  · intro hfresh
    exact buildModelsPayload_hit now up c1 p0 (by rw [hc1]) (by rw [hc1]; exact hfresh)
  · intro hstale
    have heq := buildModelsPayload_stale now up c1 (by rw [hc1]; exact hstale)
    exact ⟨heq, by rw [heq]; exact recompute_fmCalls now up c1⟩

/-- Upstream outcome with a single base model and no profiles. -/
def W2up : Upstream := { fmResult := .ok [{ modelId := some "m1" }],
                         xregResult := .ok [] }

/-- The payload the code computes for `W2up` at time 100. -/
def W2payload : ModelsPayload :=
  { object := "list",
    data := [{ id := "m1", created := 100, object := "model",
               owned_by := "bedrock" }] }

theorem ttl_correctness_witness :
    buildModelsPayload false 100 W2up initialCache =
      (.ok W2payload, { data := some W2payload, ts := 100 }, ⟨1, 1⟩) ∧
    ((250 : Int) - 100 < 300 ∧ (300 : Int) ≤ 450 - 100) ∧
    buildModelsPayload false 250 W2up { data := some W2payload, ts := 100 } =
      (.ok W2payload, { data := some W2payload, ts := 100 }, ⟨0, 0⟩) ∧
    (buildModelsPayload false 450 W2up
      { data := some W2payload, ts := 100 }).2.2.fmCalls = 1 :=
  ⟨rfl, ⟨by decide, by decide⟩,
   (ttl_correctness false 100 W2up initialCache W2payload
      { data := some W2payload, ts := 100 } ⟨1, 1⟩ rfl rfl 250 W2up).2.1
     (by decide),
   ((ttl_correctness false 100 W2up initialCache W2payload
      { data := some W2payload, ts := 100 } ⟨1, 1⟩ rfl rfl 450 W2up).2.2
     (by decide)).2⟩

/-- C10: a non-forced call hitting a fresh cache returns the stored
payload and leaves both fields of the cache entry unchanged — the
freshness window is not extended — and makes no upstream call. -/
theorem cache_hit_frame (now : Int) (up : Upstream) (cache : ModelsCache)
    (p0 : ModelsPayload) (hdata : cache.data = some p0)
    (hfresh : now - cache.ts < CACHE_TTL_SECONDS) :
    buildModelsPayload false now up cache = (.ok p0, cache, ⟨0, 0⟩) ∧
    (buildModelsPayload false now up cache).2.1.data = cache.data ∧
    (buildModelsPayload false now up cache).2.1.ts = cache.ts := by
  have h := buildModelsPayload_hit now up cache p0 hdata hfresh
  exact ⟨h, by rw [h], by rw [h]⟩

theorem cache_hit_frame_witness :
    ({ data := some W2payload, ts := 100 } : ModelsCache).data = some W2payload ∧
    (150 : Int) - 100 < CACHE_TTL_SECONDS ∧
    buildModelsPayload false 150 W2up { data := some W2payload, ts := 100 } =
      (.ok W2payload, { data := some W2payload, ts := 100 }, ⟨0, 0⟩) :=
  ⟨rfl, by decide,
   (cache_hit_frame 150 W2up { data := some W2payload, ts := 100 } W2payload
      rfl (by decide)).1⟩

/-- C6: a forced call always runs the aggregation regardless of the cache
state (present or fresh), invoking the upstream listings, and on success
overwrites the cache entry with the new payload and timestamp. -/
theorem forced_refresh (now : Int) (up : Upstream) (cache : ModelsCache) :
    buildModelsPayload true now up cache = recompute now up cache ∧
    (buildModelsPayload true now up cache).2.2.fmCalls = 1 ∧
    ∀ p c' tr, buildModelsPayload true now up cache = (.ok p, c', tr) →
      c' = { data := some p, ts := now } ∧ tr = ⟨1, 1⟩ := by
  have heq := buildModelsPayload_forced now up cache
  refine ⟨heq, by rw [heq]; exact recompute_fmCalls now up cache, ?_⟩
  intro p c' tr h
  rw [heq] at h
  obtain ⟨fms0, pages0, _, _, _, hc', htr⟩ := recompute_ok now up cache p c' tr h
  exact ⟨hc', htr⟩

/-- The payload the code computes for `W2up` at time 150. -/
def W6payload : ModelsPayload :=
  { object := "list",
    data := [{ id := "m1", created := 150, object := "model",
               owned_by := "bedrock" }] }

theorem forced_refresh_witness :
    buildModelsPayload true 150 W2up { data := some W2payload, ts := 100 } =
      (.ok W6payload, { data := some W6payload, ts := 150 }, ⟨1, 1⟩) ∧
    ({ data := some W6payload, ts := 150 } : ModelsCache) =
      { data := some W6payload, ts := 150 } ∧
    (⟨1, 1⟩ : CallTrace) = ⟨1, 1⟩ :=
  ⟨rfl,
   (forced_refresh 150 W2up { data := some W2payload, ts := 100 }).2.2
     W6payload { data := some W6payload, ts := 150 } ⟨1, 1⟩ rfl⟩

/-- C3: in every call where the aggregation ran and either upstream call
failed, the call returns exactly that upstream error, the cache entry
(payload and timestamp) is exactly the input entry, and a later
non-forced call within the TTL still returns the previously stored
payload unchanged. -/
theorem failure_isolation (force_refresh : Bool) (now : Int) (up : Upstream)
    (cache : ModelsCache) (res : Except String ModelsPayload)
    (c' : ModelsCache) (tr : CallTrace)
    (h : buildModelsPayload force_refresh now up cache = (res, c', tr))
    (hrec : tr.fmCalls = 1) (e : String)
    (he : up.fmResult = .error e ∨
      ∃ fms, up.fmResult = .ok fms ∧ up.xregResult = .error e) :
    res = .error e ∧ c' = cache ∧
    ∀ (now2 : Int) (up2 : Upstream) (p0 : ModelsPayload),
      cache.data = some p0 → now2 - cache.ts < CACHE_TTL_SECONDS →
      buildModelsPayload false now2 up2 c' = (.ok p0, c', ⟨0, 0⟩) := by
  have hpath :=
    buildModelsPayload_recompute_path force_refresh now up cache res c' tr h
      hrec
  have herr : recompute now up cache = (.error e, cache, ⟨1, 0⟩) ∨
      recompute now up cache = (.error e, cache, ⟨1, 1⟩) := by
    rcases he with he | ⟨fms, hfm, hx⟩
    · left; unfold recompute; rw [he]
    · right; unfold recompute; rw [hfm, hx]
  have hres : res = .error e ∧ c' = cache := by
    rcases herr with herr | herr <;>
    · have hm := herr.symm.trans hpath
      simp only [Prod.mk.injEq] at hm
      exact ⟨hm.1.symm, hm.2.1.symm⟩
  refine ⟨hres.1, hres.2, ?_⟩
  intro now2 up2 p0 hdata hfresh
  rw [hres.2]
  exact buildModelsPayload_hit now2 up2 cache p0 hdata hfresh

/-- Upstream outcome whose base-model listing raises. -/
def W3up : Upstream := { fmResult := .error "boom", xregResult := .ok [] }

theorem failure_isolation_witness :
    buildModelsPayload true 150 W3up { data := some W2payload, ts := 100 } =
      (.error "boom", { data := some W2payload, ts := 100 }, ⟨1, 0⟩) ∧
    ({ data := some W2payload, ts := 100 } : ModelsCache).data = some W2payload ∧
    (250 : Int) - 100 < CACHE_TTL_SECONDS ∧
    buildModelsPayload false 250 W2up { data := some W2payload, ts := 100 } =
      (.ok W2payload, { data := some W2payload, ts := 100 }, ⟨0, 0⟩) :=
  ⟨rfl, rfl, by decide,
   (failure_isolation true 150 W3up { data := some W2payload, ts := 100 }
      (.error "boom") { data := some W2payload, ts := 100 } ⟨1, 0⟩ rfl rfl
      "boom" (Or.inl rfl)).2.2 250 W2up W2payload rfl (by decide)⟩

/-- C4: in every recomputed payload the records derived from the
base-model listing form a prefix of `data` and the cross-region-derived
records the remaining suffix, each a subsequence of its source's
normalized entries (input order preserved); the base part is exactly the
deduplicated base-model entries. -/
theorem order_preservation (force_refresh : Bool) (now : Int) (up : Upstream)
    (cache : ModelsCache) (p : ModelsPayload) (c' : ModelsCache) (tr : CallTrace)
    (h : buildModelsPayload force_refresh now up cache = (.ok p, c', tr))
    (hrec : tr.fmCalls = 1) (fms : List BaseModelSummary)
    (pages : List (List InferenceProfileSummary))
    (hfm : up.fmResult = .ok fms) (hx : up.xregResult = .ok pages) :
    ∃ l1 l2, p.data = l1 ++ l2 ∧
      l1.Sublist (listFoundationModels now fms) ∧
      l2.Sublist (listCrossRegionProfiles now pages) ∧
      l1 = dedupLoop [] (listFoundationModels now fms) := by
  obtain ⟨fms0, pages0, hfm0, hx0, hp, hc', htr⟩ :=
    buildModelsPayload_ok_recompute force_refresh now up cache p c' tr h hrec
  have hfeq := Except.ok.inj (hfm0.symm.trans hfm)
  have hxeq := Except.ok.inj (hx0.symm.trans hx)
  rw [hfeq, hxeq] at hp
  subst hp
  refine ⟨dedupLoop [] (listFoundationModels now fms),
    dedupLoop
      (((dedupLoop [] (listFoundationModels now fms)).map
          ModelRecord.id).reverse ++ [])
      (listCrossRegionProfiles now pages), ?_, ?_, ?_, rfl⟩
  · exact dedupLoop_append (listFoundationModels now fms) []
      (listCrossRegionProfiles now pages)
  · exact dedupLoop_sublist _ []
  · exact dedupLoop_sublist _ _

/-- The spec example's base-model listing. -/
def W4fms : List BaseModelSummary := [{ modelId := some "claude-v2" }]

/-- The spec example's cross-region listing (one page, one profile). -/
def W4pages : List (List InferenceProfileSummary) :=
  [[{ inferenceProfileId := some "us.claude-v2",
      inferenceProfileArn := some "arn:aws:...:us.claude-v2",
      createdAt := some 50 }]]

def W4up : Upstream := { fmResult := .ok W4fms, xregResult := .ok W4pages }

/-- The payload the code computes for `W4up` at time 100. -/
def W4payload : ModelsPayload :=
  { object := "list",
    data := [{ id := "claude-v2", created := 100, object := "model",
               owned_by := "bedrock" },
             { id := "us.claude-v2", created := 50, object := "model",
               owned_by := "bedrock" },
             { id := "arn:aws:...:us.claude-v2", created := 50,
               object := "model", owned_by := "bedrock" }] }

theorem order_preservation_witness :
    buildModelsPayload false 100 W4up initialCache =
      (.ok W4payload, { data := some W4payload, ts := 100 }, ⟨1, 1⟩) ∧
    W4payload.data.map ModelRecord.id =
      ["claude-v2", "us.claude-v2", "arn:aws:...:us.claude-v2"] ∧
    ∃ l1 l2, W4payload.data = l1 ++ l2 ∧
      l1.Sublist (listFoundationModels 100 W4fms) ∧
      l2.Sublist (listCrossRegionProfiles 100 W4pages) ∧
      l1 = dedupLoop [] (listFoundationModels 100 W4fms) :=
  ⟨rfl, rfl,
   order_preservation false 100 W4up initialCache W4payload
     { data := some W4payload, ts := 100 } ⟨1, 1⟩ rfl rfl W4fms W4pages rfl rfl⟩

/-- C5: when a base-model-derived id collides with a cross-region-derived
id or ARN, the unique output record with that id is the first base-model
record carrying it — its `created` value included — and any output record
with that id is a base-model record (the colliding cross-region record is
dropped). -/
theorem base_precedence (force_refresh : Bool) (now : Int) (up : Upstream)
    (cache : ModelsCache) (p : ModelsPayload) (c' : ModelsCache) (tr : CallTrace)
    (h : buildModelsPayload force_refresh now up cache = (.ok p, c', tr))
    (hrec : tr.fmCalls = 1) (fms : List BaseModelSummary)
    (pages : List (List InferenceProfileSummary))
    (hfm : up.fmResult = .ok fms) (hx : up.xregResult = .ok pages)
    (i : String) (hi : i ∈ (listFoundationModels now fms).map ModelRecord.id) :
    p.data.find? (fun r => r.id == i) =
      (listFoundationModels now fms).find? (fun r => r.id == i) ∧
    ∀ r ∈ p.data, r.id = i → r ∈ listFoundationModels now fms := by
  obtain ⟨fms0, pages0, hfm0, hx0, hp, hc', htr⟩ :=
    buildModelsPayload_ok_recompute force_refresh now up cache p c' tr h hrec
  have hfeq := Except.ok.inj (hfm0.symm.trans hfm)
  have hxeq := Except.ok.inj (hx0.symm.trans hx)
  rw [hfeq, hxeq] at hp
  subst hp
  obtain ⟨r0, hr0mem, hr0id⟩ := List.mem_map.mp hi
  have hsome : ((listFoundationModels now fms).find?
      (fun r => r.id == i)).isSome :=
    List.find?_isSome.mpr ⟨r0, hr0mem, by simp [hr0id]⟩
  obtain ⟨r1, hr1⟩ := Option.isSome_iff_exists.mp hsome
  have hr1mem : r1 ∈ listFoundationModels now fms :=
    List.mem_of_find?_eq_some hr1
  have hr1id : r1.id = i := by simpa using List.find?_some hr1
  have hagg : (listFoundationModels now fms ++
      listCrossRegionProfiles now pages).find? (fun r => r.id == i) = some r1 :=
    find?_append_left _ _ _ r1 hr1
  have hidout : r1.id ∈ (dedupLoop []
      (listFoundationModels now fms ++
        listCrossRegionProfiles now pages)).map ModelRecord.id :=
    id_mem_dedupLoop r1 _ [] (List.mem_append_left _ hr1mem) (by simp)
  obtain ⟨r2, hr2mem, hr2id⟩ := List.mem_map.mp hidout
  have hfind2 := find?_of_mem_dedupLoop r2 _ [] hr2mem
  rw [hr2id, hr1id] at hfind2
  have hr21 : r2 = r1 := Option.some.inj (hfind2.symm.trans hagg)
  rw [hr21] at hr2mem
  constructor
  · have hout := find?_eq_some_of_mem_nodup r1 _ (dedupLoop_id_nodup
      (listFoundationModels now fms ++ listCrossRegionProfiles now pages) [])
      hr2mem
    rw [hr1id] at hout
    exact hout.trans hr1.symm
  · intro r hrmem hridi
    have hfr := find?_of_mem_dedupLoop r _ [] hrmem
    rw [hridi] at hfr
    have hrr1 : r = r1 := Option.some.inj (hfr.symm.trans hagg)
    rw [hrr1]
    exact hr1mem

/-- Base listing whose id collides with a cross-region profile id. -/
def W5fms : List BaseModelSummary := [{ modelId := some "m1" }]

def W5pages : List (List InferenceProfileSummary) :=
  [[{ inferenceProfileId := some "m1", inferenceProfileArn := some "arn:m1",
      createdAt := some 50 }]]

def W5up : Upstream := { fmResult := .ok W5fms, xregResult := .ok W5pages }

/-- The payload the code computes for `W5up` at time 100: the base record
for "m1" (created 100) wins over the profile record (created 50). -/
def W5payload : ModelsPayload :=
  { object := "list",
    data := [{ id := "m1", created := 100, object := "model",
               owned_by := "bedrock" },
             { id := "arn:m1", created := 50, object := "model",
               owned_by := "bedrock" }] }

theorem base_precedence_witness :
    buildModelsPayload false 100 W5up initialCache =
      (.ok W5payload, { data := some W5payload, ts := 100 }, ⟨1, 1⟩) ∧
    "m1" ∈ (listFoundationModels 100 W5fms).map ModelRecord.id ∧
    W5payload.data.find? (fun r => r.id == "m1") =
      (listFoundationModels 100 W5fms).find? (fun r => r.id == "m1") :=
  ⟨rfl, by decide,
   (base_precedence false 100 W5up initialCache W5payload
      { data := some W5payload, ts := 100 } ⟨1, 1⟩ rfl rfl W5fms W5pages rfl
      rfl "m1" (by decide)).1⟩

/-- C7: upstream records missing their identifying fields normalize to
zero canonical records and are silently dropped from the listing outputs:
a base-model summary with absent or empty `modelId`, and a profile
summary whose id and ARN are both absent or empty, produce nothing and
raise no error. -/
theorem malformed_records_skipped :
    (∀ (now : Int) (m : BaseModelSummary),
      m.modelId = none ∨ m.modelId = some "" → normalizeBase now m = []) ∧
    (∀ (now : Int) (s : InferenceProfileSummary),
      (s.inferenceProfileId = none ∨ s.inferenceProfileId = some "") →
      (s.inferenceProfileArn = none ∨ s.inferenceProfileArn = some "") →
      normalizeProfile now s = []) ∧
    (∀ (now : Int) (pre suf : List BaseModelSummary) (m : BaseModelSummary),
      m.modelId = none ∨ m.modelId = some "" →
      listFoundationModels now (pre ++ m :: suf) =
        listFoundationModels now (pre ++ suf)) ∧
    (∀ (now : Int) (pre suf : List InferenceProfileSummary)
        (s : InferenceProfileSummary),
      (s.inferenceProfileId = none ∨ s.inferenceProfileId = some "") →
      (s.inferenceProfileArn = none ∨ s.inferenceProfileArn = some "") →
      listCrossRegionProfiles now [pre ++ s :: suf] =
        listCrossRegionProfiles now [pre ++ suf]) := by
  have hemp : "".isEmpty = true := by decide
  have hbase : ∀ (now : Int) (m : BaseModelSummary),
      m.modelId = none ∨ m.modelId = some "" → normalizeBase now m = [] := by
    intro now m hm
    rcases hm with hm | hm <;> simp [normalizeBase, hm, hemp]
  have hprof : ∀ (now : Int) (s : InferenceProfileSummary),
      (s.inferenceProfileId = none ∨ s.inferenceProfileId = some "") →
      (s.inferenceProfileArn = none ∨ s.inferenceProfileArn = some "") →
      normalizeProfile now s = [] := by
    intro now s h1 h2
    rcases h1 with h1 | h1 <;> rcases h2 with h2 | h2 <;>
      simp [normalizeProfile, h1, h2, hemp]
  refine ⟨hbase, hprof, ?_, ?_⟩
  · intro now pre suf m hm
    simp [listFoundationModels, hbase now m hm]
  · intro now pre suf s h1 h2
    simp [listCrossRegionProfiles, hprof now s h1 h2]

theorem malformed_records_skipped_witness :
    ((⟨none⟩ : BaseModelSummary).modelId = none ∨
      (⟨none⟩ : BaseModelSummary).modelId = some "") ∧
    normalizeBase 7 ⟨none⟩ = [] ∧
    normalizeBase 7 ⟨some ""⟩ = [] ∧
    normalizeProfile 7 ⟨none, some "", none⟩ = [] ∧
    listFoundationModels 7 ([⟨some "a"⟩] ++ ⟨some ""⟩ :: [⟨some "b"⟩]) =
      listFoundationModels 7 ([⟨some "a"⟩] ++ [⟨some "b"⟩]) :=
  ⟨Or.inl rfl,
   malformed_records_skipped.1 7 ⟨none⟩ (Or.inl rfl),
   malformed_records_skipped.1 7 ⟨some ""⟩ (Or.inr rfl),
   malformed_records_skipped.2.1 7 ⟨none, some "", none⟩ (Or.inl rfl)
     (Or.inr rfl),
   malformed_records_skipped.2.2.1 7 [⟨some "a"⟩] [⟨some "b"⟩] ⟨some ""⟩
     (Or.inr rfl)⟩

/-- C8: for a cross-region profile summary, a non-empty id yields one
canonical record with that id, a non-empty ARN a second independent
record with the same created/object/owned_by (both, in that order, when
both fields are non-empty); an empty or absent id with a non-empty ARN
yields exactly the ARN record; `created` is the profile's creation
timestamp when time-like, otherwise the current time. -/
theorem profile_record_emission (now : Int) (s : InferenceProfileSummary) :
    (∀ pid arn, s.inferenceProfileId = some pid → ¬ pid.isEmpty = true →
      s.inferenceProfileArn = some arn → ¬ arn.isEmpty = true →
      normalizeProfile now s =
        [{ id := pid, created := createdTs now s, object := "model",
           owned_by := "bedrock" },
         { id := arn, created := createdTs now s, object := "model",
           owned_by := "bedrock" }]) ∧
    (∀ pid, s.inferenceProfileId = some pid → ¬ pid.isEmpty = true →
      { id := pid, created := createdTs now s, object := "model",
        owned_by := "bedrock" } ∈ normalizeProfile now s) ∧
    (∀ arn, s.inferenceProfileArn = some arn → ¬ arn.isEmpty = true →
      { id := arn, created := createdTs now s, object := "model",
        owned_by := "bedrock" } ∈ normalizeProfile now s) ∧
    ((s.inferenceProfileId = none ∨ s.inferenceProfileId = some "") →
      ∀ arn, s.inferenceProfileArn = some arn → ¬ arn.isEmpty = true →
      normalizeProfile now s =
        [{ id := arn, created := createdTs now s, object := "model",
           owned_by := "bedrock" }]) ∧
    (∀ t, s.createdAt = some t → createdTs now s = t) ∧
    (s.createdAt = none → createdTs now s = now) := by
  refine ⟨?_, ?_, ?_, ?_, ?_, ?_⟩
  · intro pid arn hpid hpe harn hae
    simp [normalizeProfile, hpid, harn, hpe, hae]
  · intro pid hpid hpe
    cases harn : s.inferenceProfileArn with
    | none => simp [normalizeProfile, hpid, harn, hpe]
    | some arn =>
        by_cases hae : arn.isEmpty = true <;>
          simp [normalizeProfile, hpid, harn, hpe, hae]
  · intro arn harn hae
    cases hpid : s.inferenceProfileId with
    | none => simp [normalizeProfile, hpid, harn, hae]
    | some pid =>
        by_cases hpe : pid.isEmpty = true <;>
          simp [normalizeProfile, hpid, harn, hae, hpe]
  · intro hid arn harn hae
    have hemp : "".isEmpty = true := by decide
    rcases hid with hid | hid <;> simp [normalizeProfile, hid, harn, hae, hemp]
  · intro t ht; simp [createdTs, ht]
  · intro ht; simp [createdTs, ht]

theorem profile_record_emission_witness :
    (⟨some "", some "arn:only", some 42⟩ :
        InferenceProfileSummary).inferenceProfileId = some "" ∧
    ¬ ("arn:only".isEmpty) = true ∧
    normalizeProfile 9 ⟨some "", some "arn:only", some 42⟩ =
      [{ id := "arn:only",
         created := createdTs 9 ⟨some "", some "arn:only", some 42⟩,
         object := "model", owned_by := "bedrock" }] ∧
    createdTs 9 ⟨some "", some "arn:only", some 42⟩ = 42 :=
  ⟨rfl, by decide,
   (profile_record_emission 9 ⟨some "", some "arn:only", some 42⟩).2.2.2.1
     (Or.inr rfl) "arn:only" rfl (by decide),
   (profile_record_emission 9 ⟨some "", some "arn:only", some 42⟩).2.2.2.2.1
     42 rfl⟩

/-- C9: when both listings succeed but yield zero usable records, a call
that recomputes stores and returns the catalog with object "list" and
empty data, and that empty-data catalog is a valid cache entry: a later
non-forced call within 300 seconds returns it with no upstream call. -/
theorem empty_catalog_cached (force_refresh : Bool) (now : Int) (up : Upstream)
    (cache : ModelsCache) (res : Except String ModelsPayload)
    (c' : ModelsCache) (tr : CallTrace) (fms : List BaseModelSummary)
    (pages : List (List InferenceProfileSummary))
    (h : buildModelsPayload force_refresh now up cache = (res, c', tr))
    (hrec : tr.fmCalls = 1)
    (hfm : up.fmResult = .ok fms) (hx : up.xregResult = .ok pages)
    (hf0 : listFoundationModels now fms = [])
    (hx0 : listCrossRegionProfiles now pages = []) :
    res = .ok { object := "list", data := [] } ∧
    c' = { data := some { object := "list", data := [] }, ts := now } ∧
    ∀ (now2 : Int) (up2 : Upstream), now2 - now < 300 →
      buildModelsPayload false now2 up2 c' =
        (.ok { object := "list", data := [] }, c', ⟨0, 0⟩) := by
  have hpath :=
    buildModelsPayload_recompute_path force_refresh now up cache res c' tr h
      hrec
  have hval : recompute now up cache =
      (.ok { object := "list", data := [] },
       { data := some { object := "list", data := [] }, ts := now },
       ⟨1, 1⟩) := by
    unfold recompute
    rw [hfm, hx]
    simp only [hf0, hx0]
    rfl
  have hmain := hval.symm.trans hpath
  simp only [Prod.mk.injEq] at hmain
  obtain ⟨hres, hcache, htr⟩ := hmain
  refine ⟨hres.symm, hcache.symm, ?_⟩
  intro now2 up2 hfresh
  exact buildModelsPayload_hit now2 up2 c'
    { object := "list", data := [] } (by rw [← hcache])
    (by rw [← hcache]; exact hfresh)

theorem empty_catalog_cached_witness :
    buildModelsPayload true 100 ⟨.ok [], .ok []⟩ initialCache =
      (.ok { object := "list", data := [] },
       { data := some { object := "list", data := [] }, ts := 100 },
       ⟨1, 1⟩) ∧
    listFoundationModels 100 [] = [] ∧
    (120 : Int) - 100 < 300 ∧
    buildModelsPayload false 120 ⟨.ok [⟨some "late"⟩], .ok []⟩
        { data := some { object := "list", data := [] }, ts := 100 } =
      (.ok { object := "list", data := [] },
       { data := some { object := "list", data := [] }, ts := 100 },
       ⟨0, 0⟩) :=
  ⟨rfl, rfl, by decide,
   (empty_catalog_cached true 100 ⟨.ok [], .ok []⟩ initialCache
      (.ok { object := "list", data := [] })
      { data := some { object := "list", data := [] }, ts := 100 }
      ⟨1, 1⟩ [] [] rfl rfl rfl rfl rfl rfl).2.2 120
     ⟨.ok [⟨some "late"⟩], .ok []⟩ (by decide)⟩

end BedrockGateway
